import Mathlib

/-!
Verification of the multi-variant HLS muxer (testpress/gohlslib).

Go strings are modelled as `List Char`; `goSplit` embeds `strings.Split`
with a one-character separator, which is the only way the program calls it.
The definitions below are transcribed from `src/examples/muxer/main.go`
(the muxer example that carries the HTTP dispatch layer); where the claim
concerns the external `mpegts.TimeDecoder` from bluenviron/mediacommon,
whose implementation is not part of this repository, the definition is
modelled from the spec and says so in its doc comment.
-/

set_option autoImplicit false

namespace GoHLS

/-- A Go string, modelled as its list of characters. -/
def str (s : String) : List Char := s.data

/-- Go `strings.Split(s, sep)` for a one-character separator `sep`:
splits around every occurrence of `sep`; the empty string yields `[[]]`. -/
def goSplit (sep : Char) : List Char → List (List Char)
  | [] => [[]]
  | c :: rest =>
    if c = sep then [] :: goSplit sep rest
    else
      match goSplit sep rest with
      | [] => [[c]]
      | a :: as => (c :: a) :: as

/-- Go `strings.Contains(s, pat)`: some suffix of `s` starts with `pat`. -/
def goContains (s pat : List Char) : Bool :=
  (List.range (s.length + 1)).any (fun i => pat.isPrefixOf (s.drop i))

/-- Number of positions of `s` at which `pat` occurs. -/
def countOcc (pat s : List Char) : Nat :=
  ((List.range (s.length + 1)).filter (fun i => pat.isPrefixOf (s.drop i))).length

/-- One feed descriptor, from `type UDPAddressInfo struct` in the source:
address, display name, resolution string and declared bandwidth, all Go
strings. -/
structure UDPAddressInfo where
  Address : List Char
  Name : List Char
  Resolution : List Char
  Bandwidth : List Char
deriving DecidableEq

/-- One step of the parse loop in `parseUDPAddresses`: split the pair on
`'|'`; with exactly 4 fields append a record, otherwise report the pair
(the `fmt.Printf("Invalid UDP address format: ...")` branch). -/
def parseStep (acc : List UDPAddressInfo × List (List Char)) (pair : List Char) :
    List UDPAddressInfo × List (List Char) :=
  match goSplit '|' pair with
  | [a, b, c, d] => (acc.1 ++ [⟨a, b, c, d⟩], acc.2)
  | _ => (acc.1, acc.2 ++ [pair])

/-- The record a single comma-separated pair parses to, when it has
exactly 4 pipe-delimited fields taken verbatim; `none` otherwise. Used to
state what the parse loop produces. -/
def recordOfPair (pair : List Char) : Option UDPAddressInfo :=
  match goSplit '|' pair with
  | [a, b, c, d] => some ⟨a, b, c, d⟩
  | _ => none

/-- `parseUDPAddresses` from the source: empty input yields no records;
otherwise the input is split on `','` and each pair is either parsed into
a record (4 pipe-delimited fields) or reported as invalid. The second
component collects the reported invalid pairs. -/
def parseUDPAddresses (input : List Char) : List UDPAddressInfo × List (List Char) :=
  if input = [] then ([], [])
  else (goSplit ',' input).foldl parseStep ([], [])

/-- The `codecs` local in `GenerateM3U8String`. -/
def codecsTag : List Char := str "avc1.42c01f"

/-- The `frameRate` local in `GenerateM3U8String`. -/
def videoFrameRate : List Char := str "24.000"

/-- `GenerateM3U8String` from `src/examples/muxer/main.go`: when the
resolution splits on `'x'` into exactly two parts, emit one
`#EXT-X-STREAM-INF` line followed by the `stream_<height>p.m3u8` link;
otherwise emit nothing. -/
def GenerateM3U8String (bandwidth resolution : List Char) : List Char :=
  match goSplit 'x' resolution with
  | [_, resTag] =>
    str "#EXT-X-STREAM-INF:BANDWIDTH=" ++ bandwidth ++
    str ",AVERAGE-BANDWIDTH=" ++ bandwidth ++
    str ",CODECS=\"" ++ codecsTag ++
    str "\",RESOLUTION=" ++ resolution ++
    str ",FRAME-RATE=" ++ videoFrameRate ++ str "\n" ++
    str "stream_" ++ resTag ++ str "p.m3u8\n\n"
  | _ => []

/-- The fixed master-manifest header assigned to `header` in `main`. -/
def manifestHeader : List Char :=
  str "#EXTM3U\n#EXT-X-VERSION:9\n#EXT-X-INDEPENDENT-SEGMENTS\n\n"

/-- The master manifest built in `main`: `m3u8String` starts empty, the
loop appends `GenerateM3U8String(info.Bandwidth, info.Resolution)` for
each parsed descriptor in order, and finally `header` is put in front. -/
def mainManifestString (infos : List UDPAddressInfo) : List Char :=
  manifestHeader ++
    infos.foldl (fun acc info => acc ++ GenerateM3U8String info.Bandwidth info.Resolution) []

/-- A descriptor whose resolution splits on `'x'` into exactly two parts,
the condition under which the manifest builder emits a block for it. -/
def hasValidResolution (info : UDPAddressInfo) : Bool :=
  (goSplit 'x' info.Resolution).length = 2

/-- Follows the claim's words for C2: the fixed header followed by exactly
one stream-info block per descriptor with a valid resolution, in
descriptor order, each block built from that descriptor's bandwidth and
resolution. -/
def specMainManifest (infos : List UDPAddressInfo) : List Char :=
  manifestHeader ++
    ((infos.filter hasValidResolution).map
      (fun info => GenerateM3U8String info.Bandwidth info.Resolution)).flatten

/-- Modelled from the spec: the state of the external `mpegts.TimeDecoder`
(bluenviron/mediacommon), whose implementation is not in this repository.
Per spec §4.1 it holds the previously seen raw value and a running total. -/
structure TimeDecoder where
  tsPrev : Int
  tsOverall : Int

/-- The standard 33-bit TS clock modulus, 2^33 (spec §4.1). -/
def tsModulus : Int := 2 ^ 33

/-- Modelled from the spec: `mpegts.NewTimeDecoder(start)` initializes the
domain's epoch at the first raw value, with a zero running total. -/
def NewTimeDecoder (start : Int) : TimeDecoder :=
  { tsPrev := start, tsOverall := 0 }

/-- Modelled from the spec: `Decode(raw)` computes the signed difference
from the previous raw value modulo the clock modulus — so a numeric
decrease caused by wraparound becomes a positive forward step — adds it to
the running total, and returns the total. -/
def TimeDecoder.Decode (d : TimeDecoder) (ts : Int) : TimeDecoder × Int :=
  let diff := (ts - d.tsPrev) % tsModulus
  ({ tsPrev := ts, tsOverall := d.tsOverall + diff }, d.tsOverall + diff)

/-- Decoding a list of raw timestamps from a given decoder state,
threading the state exactly as the per-track callback does. -/
def decodeFrom (d : TimeDecoder) : List Int → List Int
  | [] => []
  | ts :: rest => (d.Decode ts).2 :: decodeFrom (d.Decode ts).1 rest

/-- The callback logic of `setupMPEGTSReader`: on the first access unit the
decoder is created with `NewTimeDecoder(rawPTS)` and then that same raw
value is decoded; every later raw value is decoded with the threaded
state. -/
def decodeSeq : List Int → List Int
  | [] => []
  | ts :: rest => decodeFrom (NewTimeDecoder ts) (ts :: rest)

/-- A raw PTS sequence that monotonically increases except for wraparound
at the modulus boundary: all samples lie in `[0, M)` and each step either
strictly increases or strictly decreases (a wraparound). -/
def WrapMonotone (M : Int) (raws : List Int) : Prop :=
  (∀ r ∈ raws, 0 ≤ r ∧ r < M) ∧ raws.Chain' (fun a b => a < b ∨ b < a)

instance (M : Int) (raws : List Int) : Decidable (WrapMonotone M raws) := by
  unfold WrapMonotone; infer_instance

/-- The result of dispatching one HTTP request in `handleM3u8Urls`:
the master playlist body, the embedded home page, a delegation to one
variant muxer's `Handle`, or `http.NotFound`. -/
inductive DispatchResult (μ : Type) where
  | masterPlaylist : DispatchResult μ
  | homePage : DispatchResult μ
  | muxHandle : μ → DispatchResult μ
  | notFound : DispatchResult μ
deriving DecidableEq

/-- `handleM3u8Urls` from the source: the exact paths `/video.m3u8` and
`/` are answered first; otherwise the registry entries are scanned in
iteration order and the first variant whose name is contained in the path
handles the request; with no match the response is not-found. The entry
list's order stands for Go's (unspecified) map iteration order. -/
def handleM3u8Urls {μ : Type} (muxMap : List (List Char × μ)) (path : List Char) :
    DispatchResult μ :=
  if path = str "/video.m3u8" then .masterPlaylist
  else if path = str "/" then .homePage
  else
    match muxMap.find? (fun entry => goContains path entry.1) with
    | some entry => .muxHandle entry.2
    | none => .notFound

/-- The Content-Type header each branch of `handleM3u8Urls` sets before
writing its body (the variant and not-found branches set none
themselves). -/
def contentTypeOf {μ : Type} : DispatchResult μ → Option (List Char)
  | .masterPlaylist => some (str "application/vnd.apple.mpegurl")
  | .homePage => some (str "text/html")
  | .muxHandle _ => none
  | .notFound => none

/-- The ingest read loop of `setupMPEGTSReader`
(`for { err := r.Read(); if err != nil { panic(err) } }`) applied to a
finite trace of read results: it panics with the first error of the
trace, and is still looping (no panic) if the trace holds no error. -/
def readLoopPanics : List (Option (List Char)) → Option (List Char)
  | [] => none
  | none :: rest => readLoopPanics rest
  | some e :: _ => some e

/-- The fate of every feed goroutine, one entry per feed trace, under
Go's runtime semantics (spec §7 records the observed behavior): an
unrecovered panic in any goroutine aborts the whole process, so if any
feed's read loop panics every feed is terminated; otherwise none is. -/
def feedTerminated (traces : List (List (Option (List Char)))) : List Bool :=
  if traces.any (fun t => (readLoopPanics t).isSome) then traces.map (fun _ => true)
  else traces.map (fun _ => false)

/-- Claim C5 as stated: a read failure in feed `i`'s trace terminates only
that feed's pipeline, so any sibling feed `j` is not terminated. -/
def claimC5Prop : Prop :=
  ∀ (traces : List (List (Option (List Char)))) (i j : Nat),
    i < traces.length → j < traces.length → i ≠ j →
    (readLoopPanics (traces.getD i [])).isSome = true →
    (feedTerminated traces).getD j false = false

/-- The two-variant registry of claim C8, `{"480p": p1, "720p": p2}`. -/
def c8Registry {μ : Type} (p1 p2 : μ) : List (List Char × μ) :=
  [(str "480p", p1), (str "720p", p2)]

/-- Claim C8 as stated, quantified over the registry's iteration order
(Go map iteration order is unspecified): every path containing `"720p"`
dispatches to `p2`, and every path containing neither name that is not
`/` or `/video.m3u8` is answered not-found. -/
def claimC8Prop : Prop :=
  ∀ order : List (List Char × Nat), order.Perm (c8Registry 1 2) →
    (∀ path : List Char, goContains path (str "720p") = true →
      handleM3u8Urls order path = .muxHandle 2) ∧
    (∀ path : List Char, goContains path (str "480p") = false →
      goContains path (str "720p") = false →
      path ≠ str "/" → path ≠ str "/video.m3u8" →
      handleM3u8Urls order path = .notFound)

/-- The first feed of the spec's end-to-end scenario:
`udp://127.0.0.1:9000|A|640x360|200000`. -/
def feedA : UDPAddressInfo :=
  ⟨str "udp://127.0.0.1:9000", str "A", str "640x360", str "200000"⟩

/-- The second feed of the spec's end-to-end scenario:
`udp://127.0.0.1:9001|B|1280x720|1000000`. -/
def feedB : UDPAddressInfo :=
  ⟨str "udp://127.0.0.1:9001", str "B", str "1280x720", str "1000000"⟩

/-- The tag that opens every stream-info block. -/
def streamInfMarker : List Char := str "#EXT-X-STREAM-INF"

theorem goSplit_ne_nil (sep : Char) (s : List Char) : goSplit sep s ≠ [] := by
  cases s with
  | nil => simp [goSplit]
  | cons c rest =>
    simp only [goSplit]
    split
    · simp
    · split <;> simp

/-- The number of chunks `strings.Split` produces is one more than the
number of separator occurrences. -/
theorem goSplit_length (sep : Char) (s : List Char) :
    (goSplit sep s).length = s.count sep + 1 := by
  induction s with
  | nil => simp [goSplit]
  | cons c rest ih =>
    simp only [goSplit]
    by_cases h : c = sep
    · subst h
      simp [List.count_cons, ih]
    · rw [if_neg h]
      rcases hg : goSplit sep rest with _ | ⟨a, as⟩
      · exact absurd hg (goSplit_ne_nil sep rest)
      · have hlen : (a :: as).length = rest.count sep + 1 := hg ▸ ih
        simp only [List.length_cons] at hlen ⊢
        simp [List.count_cons, h, hlen]

/-- A descriptor with an invalid resolution contributes the empty string. -/
theorem generate_eq_nil (bandwidth resolution : List Char)
    (h : (goSplit 'x' resolution).length ≠ 2) :
    GenerateM3U8String bandwidth resolution = [] := by
  rcases hg : goSplit 'x' resolution with _ | ⟨a, _ | ⟨b, _ | ⟨c, t⟩⟩⟩
  · simp [GenerateM3U8String, hg]
  · simp [GenerateM3U8String, hg]
  · exact absurd (by rw [hg]; rfl) h
  · simp [GenerateM3U8String, hg]

/-- The manifest loop's `foldl` is the flattened list of per-descriptor
blocks appended to the accumulator. -/
theorem foldl_append_generate (l : List UDPAddressInfo) (acc : List Char) :
    l.foldl (fun a info => a ++ GenerateM3U8String info.Bandwidth info.Resolution) acc
      = acc ++ (l.map fun info => GenerateM3U8String info.Bandwidth info.Resolution).flatten := by
  induction l generalizing acc with
  | nil => simp
  | cons info rest ih => simp [ih, List.append_assoc]

/-- The master manifest is the header followed by the per-descriptor
blocks in descriptor order. -/
theorem mainManifestString_eq (infos : List UDPAddressInfo) :
    mainManifestString infos
      = manifestHeader ++
        (infos.map fun info => GenerateM3U8String info.Bandwidth info.Resolution).flatten := by
  unfold mainManifestString
  rw [foldl_append_generate]
  simp

/-- Dropping the descriptors with invalid resolutions does not change the
flattened block list, because their blocks are empty. -/
theorem flatten_map_filter (l : List UDPAddressInfo) :
    (l.map fun info => GenerateM3U8String info.Bandwidth info.Resolution).flatten
      = ((l.filter hasValidResolution).map
          fun info => GenerateM3U8String info.Bandwidth info.Resolution).flatten := by
  induction l with
  | nil => rfl
  | cons info rest ih =>
    by_cases h : hasValidResolution info
    · simp [List.filter_cons, h, ih]
    · have hnil : GenerateM3U8String info.Bandwidth info.Resolution = [] := by
        apply generate_eq_nil
        simpa [hasValidResolution] using h
      simp [List.filter_cons, h, ih, hnil]

/-- One parse step, phrased through `recordOfPair`. -/
theorem parseStep_eq (acc : List UDPAddressInfo × List (List Char)) (pair : List Char) :
    parseStep acc pair
      = match recordOfPair pair with
        | some r => (acc.1 ++ [r], acc.2)
        | none => (acc.1, acc.2 ++ [pair]) := by
  rcases hg : goSplit '|' pair with _ | ⟨a, _ | ⟨b, _ | ⟨c, _ | ⟨d, _ | ⟨e, t⟩⟩⟩⟩⟩ <;>
    simp [parseStep, recordOfPair, hg]

/-- The parse loop collects, in order, the records of the 4-field pairs
and the invalid pairs, appended to the respective accumulators. -/
theorem parse_foldl_eq (pairs : List (List Char))
    (xs : List UDPAddressInfo) (ys : List (List Char)) :
    pairs.foldl parseStep (xs, ys)
      = (xs ++ pairs.filterMap recordOfPair,
         ys ++ pairs.filter fun p => (recordOfPair p).isNone) := by
  induction pairs generalizing xs ys with
  | nil => simp
  | cons p rest ih =>
    rw [List.foldl_cons, parseStep_eq]
    rcases hr : recordOfPair p with _ | r
    · simp [hr, ih, List.filterMap_cons, List.filter_cons]
    · simp [hr, ih, List.filterMap_cons, List.filter_cons]

/-- Every decoded value is at least the running total the decoder started
from: each step adds a value of the raw difference reduced modulo the
(positive) clock modulus, which is non-negative. -/
theorem decodeFrom_ge (d : TimeDecoder) (raws : List Int) :
    ∀ x ∈ decodeFrom d raws, d.tsOverall ≤ x := by
  induction raws generalizing d with
  | nil => simp [decodeFrom]
  | cons ts rest ih =>
    intro x hx
    have hd : 0 ≤ (ts - d.tsPrev) % tsModulus :=
      Int.emod_nonneg _ (by norm_num [tsModulus])
    simp only [decodeFrom, List.mem_cons] at hx
    rcases hx with h | h
    · subst h
      simp only [TimeDecoder.Decode]
      omega
    · have hle := ih (d.Decode ts).1 x h
      simp only [TimeDecoder.Decode] at hle
      omega

/-- The decoded outputs from any starting state are non-decreasing. -/
theorem decodeFrom_chain (d : TimeDecoder) (raws : List Int) :
    (decodeFrom d raws).Chain' (· ≤ ·) := by
  induction raws generalizing d with
  | nil => simp [decodeFrom]
  | cons ts rest ih =>
    simp only [decodeFrom]
    rw [List.chain'_cons']
    refine ⟨fun y hy => ?_, ih _⟩
    have hmem := List.mem_of_mem_head? hy
    exact decodeFrom_ge (d.Decode ts).1 rest y hmem

/-- C1: for every raw PTS sequence that monotonically increases except for
wraparound at the modulus boundary (modulus 2^33), the normalizer's output
sequence is non-decreasing; in particular the raw sequence
`[2^33 - 10, 2^33 - 5, 3]` decodes to `[0, 5, 13]`, a strictly increasing
duration sequence. -/
theorem c1_normalizer_nondecreasing (raws : List Int)
    (h : WrapMonotone tsModulus raws) :
    (decodeSeq raws).Chain' (· ≤ ·) ∧
    decodeSeq [tsModulus - 10, tsModulus - 5, 3] = [0, 5, 13] ∧
    (decodeSeq [tsModulus - 10, tsModulus - 5, 3]).Chain' (· < ·) := by
  have hEq : decodeSeq [tsModulus - 10, tsModulus - 5, 3] = [0, 5, 13] := by decide
  refine ⟨?_, hEq, ?_⟩
  · cases raws with
    | nil => simp [decodeSeq]
    | cons ts rest => exact decodeFrom_chain _ _
  · rw [hEq]
    exact List.chain'_cons.mpr ⟨by norm_num,
      List.chain'_cons.mpr ⟨by norm_num, List.chain'_singleton 13⟩⟩

/-- Witness for C1 at the spec's wraparound example. -/
theorem c1_normalizer_nondecreasing_witness :
    (decodeSeq [tsModulus - 10, tsModulus - 5, 3]).Chain' (· ≤ ·) ∧
    decodeSeq [tsModulus - 10, tsModulus - 5, 3] = [0, 5, 13] := by
  have hw : WrapMonotone tsModulus [tsModulus - 10, tsModulus - 5, 3] := by
    constructor
    · intro r hr
      simp only [List.mem_cons, List.not_mem_nil, or_false] at hr
      rcases hr with rfl | rfl | rfl <;> constructor <;> norm_num [tsModulus]
    · exact List.chain'_cons.mpr ⟨Or.inl (by norm_num [tsModulus]),
        List.chain'_cons.mpr ⟨Or.inr (by norm_num [tsModulus]),
          List.chain'_singleton 3⟩⟩
  have h := c1_normalizer_nondecreasing [tsModulus - 10, tsModulus - 5, 3] hw
  exact ⟨h.1, h.2.1⟩

/-- Each pair contributes to exactly one of the two output lists. -/
theorem length_filterMap_add_filter (pairs : List (List Char)) :
    (pairs.filterMap recordOfPair).length
      + (pairs.filter fun p => (recordOfPair p).isNone).length = pairs.length := by
  induction pairs with
  | nil => rfl
  | cons p rest ih =>
    rcases hr : recordOfPair p with _ | r <;>
      simp [List.filterMap_cons, List.filter_cons, hr] <;> omega

/-- C3: the parser is total on malformed input — every comma-separated
pair is either returned as a record or reported invalid, so the counts
add up to the number of pairs — and on the spec's example it returns
exactly the two valid records and reports exactly the one invalid entry. -/
theorem c3_parse_total_and_example :
    (∀ input : List Char, input ≠ [] →
      (parseUDPAddresses input).1.length + (parseUDPAddresses input).2.length
        = (goSplit ',' input).length) ∧
    parseUDPAddresses (str "a|b|1280x720|500000,bad,c|d|640x360|200000")
      = ([⟨str "a", str "b", str "1280x720", str "500000"⟩,
          ⟨str "c", str "d", str "640x360", str "200000"⟩],
         [str "bad"]) := by
  constructor
  · intro input h
    unfold parseUDPAddresses
    rw [if_neg h, parse_foldl_eq]
    simpa using length_filterMap_add_filter (goSplit ',' input)
  · decide

/-- Witness for C3 at a one-pair input. -/
theorem c3_parse_total_and_example_witness :
    (parseUDPAddresses (str "bad")).1.length + (parseUDPAddresses (str "bad")).2.length
      = (goSplit ',' (str "bad")).length :=
  c3_parse_total_and_example.1 (str "bad") (by decide)

/-- C9: the parser preserves input order and copies fields verbatim and
unvalidated — the records are exactly the 4-field pairs, in pair order,
with the split fields taken as-is, and the reports are exactly the other
pairs in order; a pair of four empty fields is accepted; the empty input
yields no records and no reports. -/
theorem c9_parse_verbatim :
    parseUDPAddresses [] = ([], []) ∧
    parseUDPAddresses (str "|||") = ([⟨[], [], [], []⟩], []) ∧
    (∀ input : List Char, input ≠ [] →
      parseUDPAddresses input
        = ((goSplit ',' input).filterMap recordOfPair,
           (goSplit ',' input).filter fun p => (recordOfPair p).isNone)) := by
  refine ⟨by decide, by decide, fun input h => ?_⟩
  unfold parseUDPAddresses
  rw [if_neg h, parse_foldl_eq]
  simp

/-- Witness for C9 at a two-pair input with one malformed pair. -/
theorem c9_parse_verbatim_witness :
    parseUDPAddresses (str "a|b|c|d,oops")
      = ((goSplit ',' (str "a|b|c|d,oops")).filterMap recordOfPair,
         (goSplit ',' (str "a|b|c|d,oops")).filter
           fun p => (recordOfPair p).isNone) :=
  c9_parse_verbatim.2.2 (str "a|b|c|d,oops") (by decide)

/-- C4: for a descriptor whose resolution is a valid `WxHeight` form, the
manifest builder emits one stream-info block whose AVERAGE-BANDWIDTH
equals its BANDWIDTH, with the fixed codec tag `avc1.42c01f`, the given
resolution, the fixed frame rate `24.000`, and the relative link
`stream_<height>p.m3u8`. -/
theorem c4_stream_inf_block (bandwidth resolution w hgt : List Char)
    (h : goSplit 'x' resolution = [w, hgt]) :
    GenerateM3U8String bandwidth resolution
      = str "#EXT-X-STREAM-INF:BANDWIDTH=" ++ bandwidth ++
        str ",AVERAGE-BANDWIDTH=" ++ bandwidth ++
        str ",CODECS=\"" ++ str "avc1.42c01f" ++
        str "\",RESOLUTION=" ++ resolution ++
        str ",FRAME-RATE=" ++ str "24.000" ++ str "\n" ++
        str "stream_" ++ hgt ++ str "p.m3u8\n\n" := by
  simp [GenerateM3U8String, h, codecsTag, videoFrameRate]

/-- Witness for C4 at resolution `640x360`, bandwidth `200000`. -/
theorem c4_stream_inf_block_witness :
    GenerateM3U8String (str "200000") (str "640x360")
      = str "#EXT-X-STREAM-INF:BANDWIDTH=200000,AVERAGE-BANDWIDTH=200000,CODECS=\"avc1.42c01f\",RESOLUTION=640x360,FRAME-RATE=24.000\nstream_360p.m3u8\n\n" :=
  (c4_stream_inf_block (str "200000") (str "640x360") (str "640") (str "360")
    (by decide)).trans (by decide)

/-- C6: the manifest builder is deterministic — its output is a function
of the descriptors' bandwidth/resolution projections alone, so two runs
on the same descriptor list in the same order produce byte-identical
manifest text. -/
theorem c6_manifest_deterministic (a b : List UDPAddressInfo)
    (h : a.map (fun i => (i.Bandwidth, i.Resolution))
       = b.map (fun i => (i.Bandwidth, i.Resolution))) :
    mainManifestString a = mainManifestString b := by
  rw [mainManifestString_eq, mainManifestString_eq]
  have ha : (a.map fun i => GenerateM3U8String i.Bandwidth i.Resolution)
      = (a.map fun i => (i.Bandwidth, i.Resolution)).map
          fun p => GenerateM3U8String p.1 p.2 := by
    rw [List.map_map]
    rfl
  have hb : (b.map fun i => GenerateM3U8String i.Bandwidth i.Resolution)
      = (b.map fun i => (i.Bandwidth, i.Resolution)).map
          fun p => GenerateM3U8String p.1 p.2 := by
    rw [List.map_map]
    rfl
  rw [ha, hb, h]

/-- Witness for C6: two descriptor lists equal in bandwidth and
resolution but different in address and name give the same manifest. -/
theorem c6_manifest_deterministic_witness :
    mainManifestString [⟨str "udp://127.0.0.1:9000", str "A", str "640x360", str "200000"⟩]
      = mainManifestString [⟨str "udp://10.0.0.1:9100", str "Z", str "640x360", str "200000"⟩] :=
  c6_manifest_deterministic _ _ (by decide)

/-- C7: a descriptor whose resolution does not contain exactly one `x`
separator produces no stream-info block, and its presence anywhere in the
descriptor list leaves the manifest produced for the other descriptors
unchanged; in particular resolution `720` alone produces no block. -/
theorem c7_invalid_resolution_skipped :
    (∀ bandwidth resolution : List Char, resolution.count 'x' ≠ 1 →
      GenerateM3U8String bandwidth resolution = []) ∧
    (∀ (pre post : List UDPAddressInfo) (info : UDPAddressInfo),
      info.Resolution.count 'x' ≠ 1 →
      mainManifestString (pre ++ info :: post) = mainManifestString (pre ++ post)) ∧
    GenerateM3U8String (str "500000") (str "720") = [] := by
  have hnil : ∀ bandwidth resolution : List Char, resolution.count 'x' ≠ 1 →
      GenerateM3U8String bandwidth resolution = [] := by
    intro bandwidth resolution h
    apply generate_eq_nil
    rw [goSplit_length]
    omega
  refine ⟨hnil, fun pre post info h => ?_, by decide⟩
  rw [mainManifestString_eq, mainManifestString_eq]
  simp [List.map_append, hnil info.Bandwidth info.Resolution h]

/-- Witness for C7: inserting a descriptor with resolution `720` between
two valid descriptors leaves the manifest unchanged. -/
theorem c7_invalid_resolution_skipped_witness :
    mainManifestString [feedA, ⟨str "udp://127.0.0.1:9002", str "C", str "720", str "500000"⟩, feedB]
      = mainManifestString [feedA, feedB] :=
  c7_invalid_resolution_skipped.2.1 [feedA] [feedB]
    ⟨str "udp://127.0.0.1:9002", str "C", str "720", str "500000"⟩ (by decide)

set_option maxRecDepth 40000 in
/-- C2: the master manifest equals the fixed header followed by exactly
one stream-info block per descriptor with a valid resolution, in
descriptor order, each block carrying that descriptor's bandwidth; for
the spec's two feeds (bandwidths 200000 and 1000000) it is exactly the
header plus those two blocks, in that order. -/
theorem c2_master_manifest :
    (∀ infos : List UDPAddressInfo, mainManifestString infos = specMainManifest infos) ∧
    mainManifestString [feedA, feedB]
      = str "#EXTM3U\n#EXT-X-VERSION:9\n#EXT-X-INDEPENDENT-SEGMENTS\n\n#EXT-X-STREAM-INF:BANDWIDTH=200000,AVERAGE-BANDWIDTH=200000,CODECS=\"avc1.42c01f\",RESOLUTION=640x360,FRAME-RATE=24.000\nstream_360p.m3u8\n\n#EXT-X-STREAM-INF:BANDWIDTH=1000000,AVERAGE-BANDWIDTH=1000000,CODECS=\"avc1.42c01f\",RESOLUTION=1280x720,FRAME-RATE=24.000\nstream_720p.m3u8\n\n" ∧
    countOcc streamInfMarker (mainManifestString [feedA, feedB]) = 2 := by
  refine ⟨fun infos => ?_, by decide, by decide⟩
  rw [mainManifestString_eq]
  unfold specMainManifest
  rw [flatten_map_filter]

/-- Witness for C2's refinement part at a one-feed list. -/
theorem c2_master_manifest_witness :
    mainManifestString [feedA] = specMainManifest [feedA] :=
  c2_master_manifest.1 [feedA]

/-- C5 as stated is false: a read error in one feed's trace panics that
feed's goroutine, and under Go's semantics that terminates the sibling
feed as well. Concretely, with traces `[[read error], [no error]]` the
sibling feed 1 is terminated. -/
theorem c5_counterexample : ¬ claimC5Prop := by
  intro h
  have hx := h [[some (str "io error")], [none]] 0 1
    (by decide) (by decide) (by decide) (by decide)
  exact absurd hx (by decide)

/-- C5 amended: a UDP read failure mid-stream causes that feed's read
loop to panic, and in the reference behavior the panic terminates the
entire process — every feed, siblings included. -/
theorem c5_panic_kills_process (traces : List (List (Option (List Char))))
    (t : List (Option (List Char))) (ht : t ∈ traces)
    (hp : (readLoopPanics t).isSome = true) :
    feedTerminated traces = traces.map fun _ => true := by
  unfold feedTerminated
  rw [if_pos (List.any_eq_true.mpr ⟨t, ht, hp⟩)]

/-- Witness for the amended C5 at the two-feed counterexample trace. -/
theorem c5_panic_kills_process_witness :
    feedTerminated [[some (str "io error")], [none]] = [true, true] :=
  c5_panic_kills_process [[some (str "io error")], [none]]
    [some (str "io error")] (by decide) (by decide)

/-- C8 as stated is false: with both variants registered, the path
`/480p720p` contains `"720p"`, yet under the iteration order that visits
`"480p"` first it is dispatched to P1, not P2. -/
theorem c8_counterexample : ¬ claimC8Prop := by
  intro h
  have hx := (h (c8Registry 1 2) (List.Perm.refl _)).1 (str "/480p720p") (by decide)
  exact absurd hx (by decide)

/-- C8 amended: under either iteration order of the two registered
variants, a path containing `"720p"` and not containing `"480p"` is
dispatched to P2, and a path containing neither registered name that is
not `/` or `/video.m3u8` is answered not-found. -/
theorem c8_registry_lookup {μ : Type} (p1 p2 : μ) (order : List (List Char × μ))
    (horder : order = c8Registry p1 p2 ∨ order = [(str "720p", p2), (str "480p", p1)]) :
    (∀ path : List Char, goContains path (str "720p") = true →
      goContains path (str "480p") = false →
      handleM3u8Urls order path = .muxHandle p2) ∧
    (∀ path : List Char, goContains path (str "480p") = false →
      goContains path (str "720p") = false →
      path ≠ str "/" → path ≠ str "/video.m3u8" →
      handleM3u8Urls order path = .notFound) := by
  constructor
  · intro path h720 h480
    have hv : path ≠ str "/video.m3u8" := by
      rintro rfl; exact absurd h720 (by decide)
    have hr : path ≠ str "/" := by
      rintro rfl; exact absurd h720 (by decide)
    rcases horder with rfl | rfl <;>
      simp [handleM3u8Urls, hv, hr, c8Registry, List.find?, h480, h720]
  · intro path h480 h720 hr hv
    rcases horder with rfl | rfl <;>
      simp [handleM3u8Urls, hv, hr, c8Registry, List.find?, h480, h720]

/-- Witness for the amended C8: `/stream_720p.m3u8` reaches P2 and an
unmatched path is answered not-found. -/
theorem c8_registry_lookup_witness :
    handleM3u8Urls (c8Registry 1 2) (str "/stream_720p.m3u8")
      = DispatchResult.muxHandle 2 ∧
    handleM3u8Urls (c8Registry 1 2) (str "/other.m3u8")
      = DispatchResult.notFound :=
  ⟨(c8_registry_lookup 1 2 _ (Or.inl rfl)).1 (str "/stream_720p.m3u8")
      (by decide) (by decide),
   (c8_registry_lookup 1 2 _ (Or.inl rfl)).2 (str "/other.m3u8")
      (by decide) (by decide) (by decide) (by decide)⟩

/-- C10: the exact paths `/video.m3u8` and `/` are checked before any
variant-name match, so for every registry content they are answered with
the master playlist (content type `application/vnd.apple.mpegurl`) and
the landing page (content type `text/html`) respectively. -/
theorem c10_exact_paths_first {μ : Type} (muxMap : List (List Char × μ)) :
    handleM3u8Urls muxMap (str "/video.m3u8") = .masterPlaylist ∧
    handleM3u8Urls muxMap (str "/") = .homePage ∧
    contentTypeOf (handleM3u8Urls muxMap (str "/video.m3u8"))
      = some (str "application/vnd.apple.mpegurl") ∧
    contentTypeOf (handleM3u8Urls muxMap (str "/"))
      = some (str "text/html") := by
  have h1 : handleM3u8Urls muxMap (str "/video.m3u8") = .masterPlaylist := by
    unfold handleM3u8Urls
    rw [if_pos rfl]
  have h2 : handleM3u8Urls muxMap (str "/") = .homePage := by
    unfold handleM3u8Urls
    rw [if_neg (by decide), if_pos rfl]
  exact ⟨h1, h2, by rw [h1]; rfl, by rw [h2]; rfl⟩

/-- Witness for C10 with a registered variant named `video`, a substring
of `/video.m3u8`. -/
theorem c10_exact_paths_first_witness :
    handleM3u8Urls [(str "video", 7)] (str "/video.m3u8")
      = DispatchResult.masterPlaylist ∧
    handleM3u8Urls [(str "video", 7)] (str "/") = DispatchResult.homePage :=
  ⟨(c10_exact_paths_first [(str "video", 7)]).1,
   (c10_exact_paths_first [(str "video", 7)]).2.1⟩

end GoHLS
